import Mathlib

/-
  Verification of the senninmessagever.2 repository.

  The repository bundles two services:
  * a video proxy (src/server.js): HTTP endpoints /api/search,
    /api/stream/:id, /api/yt-img, with lazy client initialization,
    a timeout-wrapped external info call and a pure media-format
    selection over the list of renditions returned by the library;
  * a real-time chat relay (client in src/unnamed/part_000) with
    room-scoped fan-out and a privileged observer ("admin") set.

  The definitions below shallowly embed the relevant functions of the
  source.  External I/O (the ytdl library, fetch, socket transport) is
  replaced by explicit parameters (oracles / event sequences); machine
  state that the source mutates (the settled flag, the module-level
  youtube/initPromise variables, the observer set) is passed explicitly.
-/

namespace Sennin

/-! ## Media renditions and the format selection of GET /api/stream

  A `Format` models one entry of `info.formats` as consumed by
  src/server.js lines 160-187.  Only the fields the code reads are
  modelled; optional fields are `Option`, since the code guards them
  with JavaScript truthiness (`f.container`, `f.bitrate || 0`,
  `f.audioBitrate || 0`, `f.mimeType || true`). -/
structure Format where
  url : String
  itag : Nat
  container : Option String
  mimeType : Option String
  hasVideo : Bool
  hasAudio : Bool
  bitrate : Option Nat
  audioBitrate : Option Nat
deriving Repr, DecidableEq

/-- JavaScript truthiness of an optional string field: `undefined`,
`null` and the empty string are falsy, any other string is truthy. -/
def strTruthy : Option String → Bool
  | none => false
  | some s => !(s == "")

/-- The `x || 0` idiom of the source: a missing (or zero) bitrate is 0. -/
def orZero : Option Nat → Nat
  | none => 0
  | some n => n

/-- The filter predicate of server.js line 164:
`f.hasVideo && f.hasAudio && f.container && (f.mimeType || true)`. -/
def muxedPred (f : Format) : Bool :=
  f.hasVideo && f.hasAudio && strTruthy f.container && (strTruthy f.mimeType || true)

/-- Predicate of line 171: `f.hasVideo && !f.hasAudio`. -/
def videoOnlyPred (f : Format) : Bool :=
  f.hasVideo && !f.hasAudio

/-- Predicate of line 174: `f.hasAudio && !f.hasVideo`. -/
def audioOnlyPred (f : Format) : Bool :=
  f.hasAudio && !f.hasVideo

/-- Stable insertion (descending by `key`) used to model the JavaScript
`Array.prototype.sort` with comparator `(a, b) => key b - key a`; the
runtime sort is stable, so an earlier element stays before later
elements of equal key. -/
def insertDescBy (key : Format → Nat) (x : Format) : List Format → List Format
  | [] => [x]
  | y :: ys => if key y > key x then y :: insertDescBy key x ys else x :: y :: ys

/-- Stable descending sort by `key` (model of `.sort((a,b) => keyb - keya)`). -/
def sortDescBy (key : Format → Nat) : List Format → List Format
  | [] => []
  | x :: xs => insertDescBy key x (sortDescBy key xs)

/-- First element of maximal `key` in a list (earlier occurrence wins
ties); this is what `[0]` of the stable descending sort extracts. -/
def firstMaxBy (key : Format → Nat) : List Format → Option Format
  | [] => none
  | f :: fs =>
    match firstMaxBy key fs with
    | none => some f
    | some g => if key g > key f then some g else some f

/-- The adaptive record built in server.js lines 176-179. -/
structure Adaptive where
  video : Option Format
  audio : Option Format
deriving Repr, DecidableEq

/-- Result of the format selection of server.js lines 163-187:
`muxed` together with `adaptive` (null unless no muxed was found). -/
structure SelectResult where
  muxed : Option Format
  adaptive : Option Adaptive
deriving Repr, DecidableEq

/-- Lines 163-165: filter on `muxedPred`, sort descending by
`bitrate || 0`, take element `[0]` (none when the filter is empty). -/
def muxedOf (formats : List Format) : Option Format :=
  (sortDescBy (fun f => orZero f.bitrate) (formats.filter muxedPred)).head?

/-- Lines 170-172: best video-only rendition by `bitrate || 0`. -/
def bestVideoOf (formats : List Format) : Option Format :=
  (sortDescBy (fun f => orZero f.bitrate) (formats.filter videoOnlyPred)).head?

/-- Lines 173-175: best audio-only rendition by `audioBitrate || 0`. -/
def bestAudioOf (formats : List Format) : Option Format :=
  (sortDescBy (fun f => orZero f.audioBitrate) (formats.filter audioOnlyPred)).head?

/-- The format selection of server.js lines 163-187 (the `selectBest`
contract of the spec, section 4.5): find `muxed` first; only when none
exists build the `adaptive` pair, each side possibly null.  A total,
pure function: it never throws. -/
def selectBest (formats : List Format) : SelectResult :=
  let muxed := muxedOf formats
  let adaptive : Option Adaptive :=
    match muxed with
    | some _ => none
    | none => some { video := bestVideoOf formats, audio := bestAudioOf formats }
  { muxed := muxed, adaptive := adaptive }

/-! ### Lemmas about the stable sort and its head -/

theorem head_insertDescBy (key : Format → Nat) (x : Format) (l : List Format) :
    (insertDescBy key x l).head? =
      some (match l.head? with
            | none => x
            | some y => if key y > key x then y else x) := by
  cases l with
  | nil => rfl
  | cons y ys =>
    simp only [insertDescBy]
    by_cases h : key y > key x
    · simp [h]
    · simp [h]

theorem head_sortDescBy (key : Format → Nat) (l : List Format) :
    (sortDescBy key l).head? = firstMaxBy key l := by
  induction l with
  | nil => rfl
  | cons x xs ih =>
    simp only [sortDescBy, firstMaxBy, head_insertDescBy]
    rw [← ih]
    cases h : (sortDescBy key xs).head? with
    | none => simp
    | some y =>
      by_cases hk : key x < key y <;> simp [hk]

theorem firstMaxBy_eq_none (key : Format → Nat) (l : List Format) :
    firstMaxBy key l = none ↔ l = [] := by
  cases l with
  | nil => simp [firstMaxBy]
  | cons f fs =>
    simp only [firstMaxBy]
    constructor
    · intro h
      cases hm : firstMaxBy key fs with
      | none => rw [hm] at h; simp at h
      | some g =>
        rw [hm] at h
        by_cases hk : key g > key f <;> simp [hk] at h
    · intro h; exact absurd h (List.cons_ne_nil f fs)

theorem firstMaxBy_mem (key : Format → Nat) {l : List Format} {m : Format}
    (h : firstMaxBy key l = some m) : m ∈ l := by
  induction l generalizing m with
  | nil => simp [firstMaxBy] at h
  | cons f fs ih =>
    simp only [firstMaxBy] at h
    cases hm : firstMaxBy key fs with
    | none =>
      rw [hm] at h
      simp at h
      simp [h]
    | some g =>
      rw [hm] at h
      by_cases hk : key g > key f
      · simp [hk] at h
        subst h
        exact List.mem_cons_of_mem _ (ih hm)
      · simp [hk] at h
        simp [h]

theorem firstMaxBy_le (key : Format → Nat) {l : List Format} {m : Format}
    (h : firstMaxBy key l = some m) : ∀ g ∈ l, key g ≤ key m := by
  induction l generalizing m with
  | nil => simp
  | cons f fs ih =>
    simp only [firstMaxBy] at h
    cases hm : firstMaxBy key fs with
    | none =>
      rw [hm] at h
      simp at h
      subst h
      have hnil : fs = [] := (firstMaxBy_eq_none key fs).mp hm
      subst hnil
      simp
    | some g =>
      rw [hm] at h
      by_cases hk : key g > key f
      · simp [hk] at h
        subst h
        intro x hx
        rcases List.mem_cons.mp hx with h1 | h2
        · subst h1; exact Nat.le_of_lt hk
        · exact ih hm x h2
      · simp [hk] at h
        subst h
        intro x hx
        rcases List.mem_cons.mp hx with h1 | h2
        · subst h1; exact Nat.le_refl _
        · exact Nat.le_trans (ih hm x h2) (Nat.le_of_not_lt hk)


theorem firstMaxBy_first (key : Format → Nat) {l : List Format} {m : Format}
    (h : firstMaxBy key l = some m) :
    ∃ l1 l2, l = l1 ++ m :: l2 ∧ ∀ g ∈ l1, key g < key m := by
  induction l generalizing m with
  | nil => simp [firstMaxBy] at h
  | cons f fs ih =>
    simp only [firstMaxBy] at h
    cases hm : firstMaxBy key fs with
    | none =>
      rw [hm] at h
      simp at h
      subst h
      exact ⟨[], fs, rfl, by simp⟩
    | some g =>
      rw [hm] at h
      by_cases hk : key g > key f
      · simp [hk] at h
        subst h
        obtain ⟨l1, l2, heq, hlt⟩ := ih hm
        refine ⟨f :: l1, l2, by simp [heq], ?_⟩
        intro x hx
        rcases List.mem_cons.mp hx with h1 | h2
        · subst h1; exact hk
        · exact hlt x h2
      · simp [hk] at h
        subst h
        exact ⟨[], fs, rfl, by simp⟩

/-- The mimeType disjunct of line 164 is always truthy, so the muxed
filter is exactly: both flags set and a truthy container. -/
theorem muxedPred_eq (f : Format) :
    muxedPred f = (f.hasVideo && f.hasAudio && strTruthy f.container) := by
  simp [muxedPred]

theorem muxedPred_false_of (f : Format)
    (h : ¬(f.hasVideo = true ∧ f.hasAudio = true)) : muxedPred f = false := by
  rw [muxedPred_eq]
  cases hv : f.hasVideo <;> cases ha : f.hasAudio <;> simp_all

theorem videoOnlyPred_iff (f : Format) :
    videoOnlyPred f = true ↔ (f.hasVideo = true ∧ f.hasAudio = false) := by
  simp [videoOnlyPred]

theorem audioOnlyPred_iff (f : Format) :
    audioOnlyPred f = true ↔ (f.hasAudio = true ∧ f.hasVideo = false) := by
  simp [audioOnlyPred]

/-! ### Specification of the filter-sort-head pattern -/

/-- Properties of `[0]` of the sorted filtered list: membership, the
filter predicate, maximality of the key among all matching renditions,
and first occurrence winning ties. -/
theorem bestOf_spec (p : Format → Bool) (key : Format → Nat) (l : List Format)
    {m : Format} (h : (sortDescBy key (l.filter p)).head? = some m) :
    m ∈ l ∧ p m = true ∧ (∀ g ∈ l, p g = true → key g ≤ key m) ∧
    ∃ l1 l2, l.filter p = l1 ++ m :: l2 ∧ ∀ g ∈ l1, key g < key m := by
  rw [head_sortDescBy] at h
  have hmem := firstMaxBy_mem key h
  have hle := firstMaxBy_le key h
  have hfirst := firstMaxBy_first key h
  have hm' := List.mem_filter.mp hmem
  exact ⟨hm'.1, hm'.2, fun g hg hp => hle g (List.mem_filter.mpr ⟨hg, hp⟩), hfirst⟩

theorem bestOf_eq_none (p : Format → Bool) (key : Format → Nat) (l : List Format)
    (h : ∀ f ∈ l, p f = false) : (sortDescBy key (l.filter p)).head? = none := by
  rw [head_sortDescBy, firstMaxBy_eq_none, List.filter_eq_nil_iff]
  intro a ha
  simp [h a ha]

theorem bestOf_isSome (p : Format → Bool) (key : Format → Nat) (l : List Format)
    (h : ∃ f ∈ l, p f = true) :
    ∃ m, (sortDescBy key (l.filter p)).head? = some m := by
  rw [head_sortDescBy]
  cases hm : firstMaxBy key (l.filter p) with
  | none =>
    obtain ⟨f, hf, hp⟩ := h
    have : l.filter p = [] := (firstMaxBy_eq_none key _).mp hm
    have : f ∈ l.filter p := List.mem_filter.mpr ⟨hf, hp⟩
    simp_all
  | some m => exact ⟨m, rfl⟩

theorem selectBest_muxed (l : List Format) : (selectBest l).muxed = muxedOf l := rfl

theorem selectBest_adaptive_some (l : List Format) {m : Format}
    (h : muxedOf l = some m) : (selectBest l).adaptive = none := by
  simp [selectBest, h]

theorem selectBest_adaptive_none (l : List Format) (h : muxedOf l = none) :
    (selectBest l).adaptive = some { video := bestVideoOf l, audio := bestAudioOf l } := by
  simp [selectBest, h]

/-! ## Claim C1 (corrected)

  The claim says the muxed choice ranges over exactly the renditions
  with both flags true; the source (line 164) additionally requires a
  truthy `container`, so a both-flag rendition without a container is
  skipped.  `fmtNoContainer` below refutes the claim as stated; the
  amended claim (filter additionally requires a truthy container)
  is proved as `muxed_selection_amended`. -/

/-- A rendition with both flags true, bitrate 100, but no container. -/
def fmtNoContainer : Format :=
  { url := "https://example/v", itag := 18, container := none, mimeType := none,
    hasVideo := true, hasAudio := true, bitrate := some 100, audioBitrate := none }

/-- A muxed rendition with a container, used in witnesses. -/
def fmtMuxed : Format :=
  { url := "https://example/a", itag := 22, container := some "mp4",
    mimeType := some "video/mp4", hasVideo := true, hasAudio := true,
    bitrate := some 100, audioBitrate := some 128 }

/-- C1 counterexample: the list `[fmtNoContainer]` contains a rendition
with both has-video and has-audio true, yet the format selection does
not return it as muxed (it returns muxed = null), and adaptive is not
null — contrary to the claim, because line 164 also requires a truthy
container. -/
theorem muxed_ignores_missing_container :
    fmtNoContainer.hasVideo = true ∧ fmtNoContainer.hasAudio = true ∧
    (selectBest [fmtNoContainer]).muxed = none ∧
    (selectBest [fmtNoContainer]).adaptive ≠ none := by decide

/-- C1 (amended): for every list containing at least one rendition with
both flags true AND a truthy container, the format selection returns as
muxed a rendition of maximal bitrate (missing bitrate treated as 0)
among exactly those renditions with both flags true and a truthy
container, the first occurrence winning ties, and adaptive = null. -/
theorem muxed_selection_amended (l : List Format)
    (h : ∃ f ∈ l, f.hasVideo = true ∧ f.hasAudio = true ∧ strTruthy f.container = true) :
    ∃ m, (selectBest l).muxed = some m ∧
      m ∈ l ∧ m.hasVideo = true ∧ m.hasAudio = true ∧ strTruthy m.container = true ∧
      (∀ g ∈ l, g.hasVideo = true → g.hasAudio = true → strTruthy g.container = true →
        orZero g.bitrate ≤ orZero m.bitrate) ∧
      (∃ l1 l2, l.filter muxedPred = l1 ++ m :: l2 ∧
        ∀ g ∈ l1, orZero g.bitrate < orZero m.bitrate) ∧
      (selectBest l).adaptive = none := by
  have hex : ∃ f ∈ l, muxedPred f = true := by
    obtain ⟨f, hf, hv, ha, hc⟩ := h
    exact ⟨f, hf, by rw [muxedPred_eq, hv, ha, hc]; rfl⟩
  obtain ⟨m, hm⟩ := bestOf_isSome muxedPred (fun f => orZero f.bitrate) l hex
  obtain ⟨hmem, hpred, hle, hfirst⟩ := bestOf_spec muxedPred _ l hm
  rw [muxedPred_eq] at hpred
  have hv : m.hasVideo = true := by
    cases hb : m.hasVideo <;> simp_all
  have ha : m.hasAudio = true := by
    cases hb : m.hasAudio <;> simp_all
  have hc : strTruthy m.container = true := by
    cases hb : strTruthy m.container <;> simp_all
  refine ⟨m, hm, hmem, hv, ha, hc, ?_, hfirst, selectBest_adaptive_some l hm⟩
  intro g hg hgv hga hgc
  exact hle g hg (by rw [muxedPred_eq, hgv, hga, hgc]; rfl)

/-- Witness for C1 (amended) at the concrete list `[fmtMuxed]`. -/
theorem muxed_selection_amended_witness :
    ∃ m, (selectBest [fmtMuxed]).muxed = some m ∧
      m ∈ [fmtMuxed] ∧ m.hasVideo = true ∧ m.hasAudio = true ∧
      strTruthy m.container = true ∧
      (∀ g ∈ [fmtMuxed], g.hasVideo = true → g.hasAudio = true →
        strTruthy g.container = true → orZero g.bitrate ≤ orZero m.bitrate) ∧
      (∃ l1 l2, ([fmtMuxed]).filter muxedPred = l1 ++ m :: l2 ∧
        ∀ g ∈ l1, orZero g.bitrate < orZero m.bitrate) ∧
      (selectBest [fmtMuxed]).adaptive = none :=
  muxed_selection_amended [fmtMuxed] ⟨fmtMuxed, by decide, by decide, by decide, by decide⟩

/-! ## Claim C2: empty input / no matching renditions -/

/-- C2: when the list is empty or contains no muxed candidate, no
video-only and no audio-only rendition, the selection returns
muxed = null and adaptive = (null, null).  `selectBest` is a total
Lean function, so it never throws. -/
theorem selectBest_no_candidates (l : List Format)
    (h1 : ∀ f ∈ l, ¬(f.hasVideo = true ∧ f.hasAudio = true))
    (h2 : ∀ f ∈ l, ¬(f.hasVideo = true ∧ f.hasAudio = false))
    (h3 : ∀ f ∈ l, ¬(f.hasAudio = true ∧ f.hasVideo = false)) :
    selectBest l = { muxed := none, adaptive := some { video := none, audio := none } } := by
  have hmux : muxedOf l = none :=
    bestOf_eq_none _ _ l (fun f hf => muxedPred_false_of f (h1 f hf))
  have hvid : bestVideoOf l = none := by
    refine bestOf_eq_none _ _ l (fun f hf => ?_)
    cases hb : videoOnlyPred f
    · rfl
    · exact absurd ((videoOnlyPred_iff f).mp hb) (h2 f hf)
  have haud : bestAudioOf l = none := by
    refine bestOf_eq_none _ _ l (fun f hf => ?_)
    cases hb : audioOnlyPred f
    · rfl
    · exact absurd ((audioOnlyPred_iff f).mp hb) (h3 f hf)
  simp [selectBest, muxedOf] at hmux ⊢
  simp [hmux, bestVideoOf, bestAudioOf] at hvid haud ⊢
  simp [hvid, haud]

/-- Witness for C2 at the empty list: `selectBest []` returns exactly
`{muxed: null, adaptive: {video: null, audio: null}}`. -/
theorem selectBest_no_candidates_witness :
    selectBest [] = { muxed := none, adaptive := some { video := none, audio := none } } :=
  selectBest_no_candidates [] (by simp) (by simp) (by simp)

/-! ## Claim C3: adaptive fallback when no muxed candidate exists -/

/-- A video-only rendition (bitrate 50), as in the spec example. -/
def fmtVideoOnly : Format :=
  { url := "https://example/vd", itag := 137, container := some "mp4",
    mimeType := some "video/mp4", hasVideo := true, hasAudio := false,
    bitrate := some 50, audioBitrate := none }

/-- An audio-only rendition (audio bitrate 30), as in the spec example. -/
def fmtAudioOnly : Format :=
  { url := "https://example/au", itag := 140, container := some "m4a",
    mimeType := some "audio/mp4", hasVideo := false, hasAudio := true,
    bitrate := none, audioBitrate := some 30 }

/-- C3: when no rendition has both flags true, the selection returns
muxed = null and an adaptive pair whose video side is the
highest-bitrate video-only rendition and whose audio side is the
highest-audio-bitrate audio-only rendition, each side null exactly when
no such rendition exists. -/
theorem adaptive_selection (l : List Format)
    (h : ∀ f ∈ l, ¬(f.hasVideo = true ∧ f.hasAudio = true)) :
    (selectBest l).muxed = none ∧
    ∃ a, (selectBest l).adaptive = some a ∧
      ((∀ f ∈ l, ¬(f.hasVideo = true ∧ f.hasAudio = false)) → a.video = none) ∧
      (∀ v, a.video = some v →
        v ∈ l ∧ v.hasVideo = true ∧ v.hasAudio = false ∧
        ∀ g ∈ l, g.hasVideo = true → g.hasAudio = false →
          orZero g.bitrate ≤ orZero v.bitrate) ∧
      ((∃ f ∈ l, f.hasVideo = true ∧ f.hasAudio = false) → ∃ v, a.video = some v) ∧
      ((∀ f ∈ l, ¬(f.hasAudio = true ∧ f.hasVideo = false)) → a.audio = none) ∧
      (∀ u, a.audio = some u →
        u ∈ l ∧ u.hasAudio = true ∧ u.hasVideo = false ∧
        ∀ g ∈ l, g.hasAudio = true → g.hasVideo = false →
          orZero g.audioBitrate ≤ orZero u.audioBitrate) ∧
      ((∃ f ∈ l, f.hasAudio = true ∧ f.hasVideo = false) → ∃ u, a.audio = some u) := by
  have hmux : muxedOf l = none :=
    bestOf_eq_none _ _ l (fun f hf => muxedPred_false_of f (h f hf))
  refine ⟨hmux, { video := bestVideoOf l, audio := bestAudioOf l },
    selectBest_adaptive_none l hmux, ?_, ?_, ?_, ?_, ?_, ?_⟩
  · intro hnone
    refine bestOf_eq_none _ _ l (fun f hf => ?_)
    cases hb : videoOnlyPred f
    · rfl
    · exact absurd ((videoOnlyPred_iff f).mp hb) (hnone f hf)
  · intro v hv
    obtain ⟨hmem, hpred, hle, _⟩ := bestOf_spec videoOnlyPred _ l hv
    obtain ⟨hv1, hv2⟩ := (videoOnlyPred_iff v).mp hpred
    exact ⟨hmem, hv1, hv2, fun g hg h1 h2 =>
      hle g hg ((videoOnlyPred_iff g).mpr ⟨h1, h2⟩)⟩
  · intro ⟨f, hf, h1, h2⟩
    exact bestOf_isSome videoOnlyPred _ l ⟨f, hf, (videoOnlyPred_iff f).mpr ⟨h1, h2⟩⟩
  · intro hnone
    refine bestOf_eq_none _ _ l (fun f hf => ?_)
    cases hb : audioOnlyPred f
    · rfl
    · exact absurd ((audioOnlyPred_iff f).mp hb) (hnone f hf)
  · intro u hu
    obtain ⟨hmem, hpred, hle, _⟩ := bestOf_spec audioOnlyPred _ l hu
    obtain ⟨hu1, hu2⟩ := (audioOnlyPred_iff u).mp hpred
    exact ⟨hmem, hu1, hu2, fun g hg h1 h2 =>
      hle g hg ((audioOnlyPred_iff g).mpr ⟨h1, h2⟩)⟩
  · intro ⟨f, hf, h1, h2⟩
    exact bestOf_isSome audioOnlyPred _ l ⟨f, hf, (audioOnlyPred_iff f).mpr ⟨h1, h2⟩⟩

/-- Witness for C3 at the spec's own example list (a video-only
rendition of bitrate 50 and an audio-only rendition of audio
bitrate 30). -/
theorem adaptive_selection_witness :
    (selectBest [fmtVideoOnly, fmtAudioOnly]).muxed = none ∧
    (selectBest [fmtVideoOnly, fmtAudioOnly]).adaptive =
      some { video := some fmtVideoOnly, audio := some fmtAudioOnly } := by
  have h := adaptive_selection [fmtVideoOnly, fmtAudioOnly] (by decide)
  refine ⟨h.1, ?_⟩
  obtain ⟨a, ha, -, hvspec, hvex, -, huspec, huex⟩ := h.2
  obtain ⟨v, hv⟩ := hvex ⟨fmtVideoOnly, by decide, by decide, by decide⟩
  obtain ⟨u, hu⟩ := huex ⟨fmtAudioOnly, by decide, by decide, by decide⟩
  have hv' := hvspec v hv
  have hu' := huspec u hu
  have hveq : v = fmtVideoOnly := by
    have := hv'.1
    have hne : v ≠ fmtAudioOnly := by
      intro heq
      rw [heq] at hv'
      exact absurd hv'.2.1 (by decide)
    rcases List.mem_cons.mp this with h1 | h2
    · exact h1
    · exact absurd (List.mem_singleton.mp h2) hne
  have hueq : u = fmtAudioOnly := by
    have := hu'.1
    have hne : u ≠ fmtVideoOnly := by
      intro heq
      rw [heq] at hu'
      exact absurd hu'.2.1 (by decide)
    rcases List.mem_cons.mp this with h1 | h2
    · exact absurd h1 hne
    · exact List.mem_singleton.mp h2
  subst hveq
  subst hueq
  rw [ha]
  cases a
  simp_all

/-! ## Claim C4: getInfoWithTimeout settles exactly once

  server.js lines 95-120 wrap `ytdl.getInfo` in a promise guarded by a
  `settled` flag: the `.then` callback, the `.catch` callback and the
  `setTimeout` callback each test-and-set the flag, and only the first
  one to run settles the outer promise.  The event loop runs callbacks
  atomically, so an execution is a sequence of these callbacks; the
  model below folds that sequence over the flag state. -/

/-- A callback firing: the external call resolved, the external call
rejected, or the 7-second (8-second at the call site) timer expired. -/
inductive GEvent where
  | resolved
  | rejected
  | timedOut
deriving Repr, DecidableEq

/-- How the outer promise settles: `resolve(info)`, `reject(err)`, or
`reject(new Error("ytdl.getInfo timeout"))` — the latter two both are
failure outcomes. -/
inductive Settled where
  | fulfilled
  | failed
  | timeoutFailed
deriving Repr, DecidableEq

def settleOf : GEvent → Settled
  | .resolved => .fulfilled
  | .rejected => .failed
  | .timedOut => .timeoutFailed

/-- One callback invocation: the `if (!settled)` guard — when the flag
is already set the callback does nothing (the occurrence is discarded),
otherwise it sets the flag and settles with its outcome. -/
def settleStep (st : Option Settled) (e : GEvent) : Option Settled :=
  match st with
  | some o => some o
  | none => some (settleOf e)

/-- The outer promise's state after a sequence of callback firings. -/
def runSettle (es : List GEvent) : Option Settled :=
  es.foldl settleStep none

def settleStepCount (p : Option Settled × Nat) (e : GEvent) : Option Settled × Nat :=
  match p.1 with
  | some _ => p
  | none => (some (settleOf e), p.2 + 1)

/-- How many times the outer promise is actually settled during a
sequence of callback firings. -/
def settleCount (es : List GEvent) : Nat :=
  (es.foldl settleStepCount (none, 0)).2

theorem settle_absorb (o : Settled) (es : List GEvent) :
    es.foldl settleStep (some o) = some o := by
  induction es with
  | nil => rfl
  | cons e es ih => simp [List.foldl_cons, settleStep, ih]

theorem settleCount_absorb (o : Settled) (n : Nat) (es : List GEvent) :
    es.foldl settleStepCount (some o, n) = (some o, n) := by
  induction es with
  | nil => rfl
  | cons e es ih => simp [List.foldl_cons, settleStepCount, ih]

/-- C4: for every nonempty sequence of callback firings, the
timeout-wrapped call settles exactly once, with the outcome of the
first event; all later events are discarded.  In particular a
timed-out call fails exactly once, never twice. -/
theorem getInfo_settles_once (es : List GEvent) (h : es ≠ []) :
    runSettle es = some (settleOf (es.head h)) ∧ settleCount es = 1 := by
  cases es with
  | nil => exact absurd rfl h
  | cons e rest =>
    constructor
    · simp [runSettle, List.foldl_cons, settleStep, settle_absorb]
    · simp [settleCount, List.foldl_cons, settleStepCount, settleCount_absorb]

/-- Witness for C4: the timer fires first, then the external call
resolves; the outcome is the single timeout failure. -/
theorem getInfo_settles_once_witness :
    runSettle [GEvent.timedOut, GEvent.resolved] = some Settled.timeoutFailed ∧
    settleCount [GEvent.timedOut, GEvent.resolved] = 1 :=
  getInfo_settles_once [GEvent.timedOut, GEvent.resolved] (by decide)

/-! ## Claims C5, C9: the 11-character id validation

  server.js line 91: `/^[\w-]{11}$/` — eleven characters, each a word
  character (`[A-Za-z0-9_]`, the regex has no unicode flag) or a
  hyphen. -/

def isWordChar (c : Char) : Bool :=
  (65 ≤ c.toNat && c.toNat ≤ 90) || (97 ≤ c.toNat && c.toNat ≤ 122) ||
  (48 ≤ c.toNat && c.toNat ≤ 57) || c == '_'

/-- server.js lines 90-92. -/
def isValidYouTubeId (id : String) : Bool :=
  id.length == 11 && id.data.all (fun c => isWordChar c || c == '-')

/-- Responses the /api/stream/:id handler can produce. -/
inductive StreamResponse where
  | badRequest (msg : String)
  | ok (id : String) (result : SelectResult)
  | badGateway (msg : String)
deriving Repr, DecidableEq

/-- Response paired with whether the external stream-info lookup
(`getInfoWithTimeout`) was invoked. -/
structure StreamTrace where
  response : StreamResponse
  lookupInvoked : Bool
deriving Repr, DecidableEq

/-- The handler of GET /api/stream/:id, server.js lines 152-197.  `ext`
stands for the outcome of the external `getInfoWithTimeout` call (error
covers both a library rejection and the timeout; the catch block maps
either to a 502).  The JSON projection of the url/itag/container/
qualityLabel fields (lines 183-187) is presentation-only; the ok
response carries the selection result itself. -/
def handleStream (id : String) (ext : Except String (List Format)) : StreamTrace :=
  if isValidYouTubeId id then
    match ext with
    | .ok formats => { response := .ok id (selectBest formats), lookupInvoked := true }
    | .error _ =>
      { response := .badGateway "ストリームURLの取得に失敗しました（タイムアウト／リトライ推奨）",
        lookupInvoked := true }
  else { response := .badRequest "無効な動画IDです", lookupInvoked := false }

/-- C5: an id failing the 11-character pattern yields a 400 with an
error message, and the external lookup is never invoked. -/
theorem invalid_id_rejected (id : String) (ext : Except String (List Format))
    (h : isValidYouTubeId id = false) :
    handleStream id ext =
      { response := .badRequest "無効な動画IDです", lookupInvoked := false } := by
  simp [handleStream, h]

/-- Witness for C5 at the three-character id "abc". -/
theorem invalid_id_rejected_witness :
    handleStream "abc" (Except.ok []) =
      { response := .badRequest "無効な動画IDです", lookupInvoked := false } :=
  invalid_id_rejected "abc" (Except.ok []) (by decide)

/-! ## Claims C8, C9: GET /api/yt-img

  server.js lines 200-226: validate the id, then HEAD-probe the fixed
  resolution list in order with a 3-second abort per probe; a fetch
  error or abort is caught (`resp = null`) and the loop continues; the
  first probe whose response is `resp.ok` wins and the handler
  redirects; if none succeeds the handler answers 404. -/

/-- Outcome of one HEAD probe: the fetch resolved with `resp.ok`, the
fetch resolved with a non-ok status, or the fetch rejected / was
aborted by the 3-second timer (caught, leaving `resp = null`). -/
inductive CheckOutcome where
  | okResp
  | notOkResp
  | fetchError
deriving Repr, DecidableEq

/-- server.js line 204. -/
def resolutions : List String :=
  ["maxresdefault", "sddefault", "hqdefault", "mqdefault", "default"]

/-- server.js line 209. -/
def thumbUrl (id resName : String) : String :=
  "https://i.ytimg.com/vi/" ++ id ++ "/" ++ resName ++ ".jpg"

inductive ImgResponse where
  | badRequest (msg : String)
  | redirect (url : String)
  | notFound
deriving Repr, DecidableEq

/-- The for-loop of lines 207-224 over the remaining resolutions;
`check` stands for the probe of one URL.  Returns the response and the
list of URLs actually probed.  Both non-ok outcomes fall through to the
next iteration, exactly as the source catches errors and continues. -/
def probeLoop (id : String) (check : String → CheckOutcome) :
    List String → ImgResponse × List String
  | [] => (.notFound, [])
  | r :: rs =>
    let u := thumbUrl id r
    match check u with
    | .okResp => (.redirect u, [u])
    | .notOkResp =>
      let rest := probeLoop id check rs
      (rest.1, u :: rest.2)
    | .fetchError =>
      let rest := probeLoop id check rs
      (rest.1, u :: rest.2)

/-- The handler of GET /api/yt-img, server.js lines 200-226: validate
the id, then run the probe loop over the fixed resolution list. -/
def handleYtImg (id : String) (check : String → CheckOutcome) :
    ImgResponse × List String :=
  if isValidYouTubeId id then probeLoop id check resolutions
  else (.badRequest "無効な動画IDです", [])

theorem probeLoop_notFound (id : String) (check : String → CheckOutcome)
    (rs : List String) (h : ∀ r ∈ rs, check (thumbUrl id r) ≠ CheckOutcome.okResp) :
    probeLoop id check rs = (.notFound, rs.map (thumbUrl id)) := by
  induction rs with
  | nil => rfl
  | cons r rs ih =>
    have hr := h r (List.mem_cons_self r rs)
    have hrest := ih (fun r' hr' => h r' (List.mem_cons_of_mem r hr'))
    cases hc : check (thumbUrl id r) with
    | okResp => exact absurd hc hr
    | notOkResp => simp [probeLoop, hc, hrest]
    | fetchError => simp [probeLoop, hc, hrest]

theorem probeLoop_redirect (id : String) (check : String → CheckOutcome)
    (l1 : List String) (r : String) (l2 : List String)
    (h1 : ∀ r' ∈ l1, check (thumbUrl id r') ≠ CheckOutcome.okResp)
    (h2 : check (thumbUrl id r) = CheckOutcome.okResp) :
    probeLoop id check (l1 ++ r :: l2) =
      (.redirect (thumbUrl id r), (l1 ++ [r]).map (thumbUrl id)) := by
  induction l1 with
  | nil => simp [probeLoop, h2]
  | cons x l1 ih =>
    have hx := h1 x (List.mem_cons_self x l1)
    have hrest := ih (fun r' hr' => h1 r' (List.mem_cons_of_mem x hr'))
    cases hc : check (thumbUrl id x) with
    | okResp => exact absurd hc hx
    | notOkResp => simp [probeLoop, hc, hrest]
    | fetchError => simp [probeLoop, hc, hrest]

/-- C8: for a valid id the handler probes the fixed resolution list in
order: if some resolution's check succeeds, it redirects to the first
such resolution's URL, having probed every earlier resolution (so a
failed or timed-out earlier check never prevented probing the later
ones); if no check succeeds, it answers 404 after probing the whole
list. -/
theorem ytimg_probes_in_order (id : String) (check : String → CheckOutcome)
    (hid : isValidYouTubeId id = true) :
    ((∀ r ∈ resolutions, check (thumbUrl id r) ≠ CheckOutcome.okResp) →
      handleYtImg id check = (ImgResponse.notFound, resolutions.map (thumbUrl id))) ∧
    (∀ l1 r l2, resolutions = l1 ++ r :: l2 →
      (∀ r' ∈ l1, check (thumbUrl id r') ≠ CheckOutcome.okResp) →
      check (thumbUrl id r) = CheckOutcome.okResp →
      handleYtImg id check =
        (ImgResponse.redirect (thumbUrl id r), (l1 ++ [r]).map (thumbUrl id))) := by
  constructor
  · intro h
    simp [handleYtImg, hid, probeLoop_notFound id check resolutions h]
  · intro l1 r l2 heq h1 h2
    simp [handleYtImg, hid, heq, probeLoop_redirect id check l1 r l2 h1 h2]

/-- Witness for C8: an 11-character id whose first two probes error out
or are not-ok while the third resolution (hqdefault) exists; the
handler redirects there after probing the first two. -/
theorem ytimg_probes_in_order_witness :
    handleYtImg "aaaaaaaaaaa"
        (fun u => if u = thumbUrl "aaaaaaaaaaa" "hqdefault"
                  then CheckOutcome.okResp else CheckOutcome.fetchError) =
      (ImgResponse.redirect (thumbUrl "aaaaaaaaaaa" "hqdefault"),
       (["maxresdefault", "sddefault"] ++ ["hqdefault"]).map (thumbUrl "aaaaaaaaaaa")) :=
  (ytimg_probes_in_order "aaaaaaaaaaa" _ (by decide)).2
    ["maxresdefault", "sddefault"] "hqdefault" ["mqdefault", "default"]
    (by decide) (by decide) (by decide)

/-- C9: an id failing the 11-character pattern yields a 400
immediately, and no thumbnail existence check is performed. -/
theorem ytimg_invalid_id_rejected (id : String) (check : String → CheckOutcome)
    (h : isValidYouTubeId id = false) :
    handleYtImg id check = (ImgResponse.badRequest "無効な動画IDです", []) := by
  simp [handleYtImg, h]

/-- Witness for C9 at the one-character id "x". -/
theorem ytimg_invalid_id_rejected_witness :
    handleYtImg "x" (fun _ => CheckOutcome.okResp) =
      (ImgResponse.badRequest "無効な動画IDです", []) :=
  ytimg_invalid_id_rejected "x" (fun _ => CheckOutcome.okResp) (by decide)

/-! ## Claim C10: initYoutube is single-flight and caching

  server.js lines 44-78: module-level `youtube` and `initPromise`.  A
  call returns the cached client when `youtube` is set, returns the
  stored promise when one is in flight, and only otherwise starts a new
  initialization sequence (storing its promise).  The sequence itself
  (lines 53-75) attempts `Innertube.create` at most `retries` times.
  Clients and promises are modelled as opaque numeric handles. -/

structure InitState where
  youtube : Option Nat
  initPromise : Option Nat
deriving Repr, DecidableEq

inductive InitReturn where
  | cachedClient (c : Nat)
  | existingPromise (p : Nat)
  | newPromise (p : Nat)
deriving Repr, DecidableEq

/-- One call of `initYoutube` (the guards of lines 50-51 and the
assignment of line 53): `fresh` is the handle the new promise would
get if one is created. -/
def initYoutubeCall (st : InitState) (fresh : Nat) : InitState × InitReturn :=
  match st.youtube with
  | some c => (st, .cachedClient c)
  | none =>
    match st.initPromise with
    | some p => (st, .existingPromise p)
    | none => ({ st with initPromise := some fresh }, .newPromise fresh)

/-- Events interleaving calls with the completion of the in-flight
sequence: success assigns `youtube` (line 59); failure leaves it null
(line 68).  `initPromise` is never cleared by the source. -/
inductive InitEvent where
  | call (fresh : Nat)
  | initDone (client : Nat)
  | initFail
deriving Repr, DecidableEq

def initStep (st : InitState) : InitEvent → InitState × List InitReturn
  | .call fresh =>
    let r := initYoutubeCall st fresh
    (r.1, [r.2])
  | .initDone c => ({ st with youtube := some c }, [])
  | .initFail => ({ st with youtube := none }, [])

def runInit (st : InitState) : List InitEvent → InitState × List InitReturn
  | [] => (st, [])
  | e :: es =>
    let r1 := initStep st e
    let r2 := runInit r1.1 es
    (r2.1, r1.2 ++ r2.2)

def isNewPromise : InitReturn → Bool
  | .newPromise _ => true
  | _ => false

/-- The retry loop of lines 54-73: `outcomes k` is the result of the
k-th `Innertube.create` attempt (`none` = it threw).  Returns the
number of attempts made and the loop's result (`.error` models the
rethrow once `attempt >= retries`). -/
def initLoop (outcomes : Nat → Option Nat) (retries attempt : Nat) :
    Nat × Except Unit (Option Nat) :=
  if _h : attempt < retries then
    match outcomes (attempt + 1) with
    | some client => (1, .ok (some client))
    | none =>
      if attempt + 1 ≥ retries then (1, .error ())
      else
        let r := initLoop outcomes retries (attempt + 1)
        (r.1 + 1, r.2)
  else (0, .ok none)
termination_by retries - attempt
decreasing_by omega

theorem initLoop_attempts_le (outcomes : Nat → Option Nat) (retries : Nat) :
    ∀ d attempt, retries - attempt ≤ d →
      (initLoop outcomes retries attempt).1 ≤ retries - attempt := by
  intro d
  induction d with
  | zero =>
    intro attempt h
    rw [initLoop]
    have hlt : ¬ attempt < retries := by omega
    simp [hlt]
  | succ d ih =>
    intro attempt h
    rw [initLoop]
    by_cases hlt : attempt < retries
    · simp only [hlt, dif_pos]
      cases outcomes (attempt + 1) with
      | some c => simp; omega
      | none =>
        by_cases hge : attempt + 1 ≥ retries
        · simp [hge]; omega
        · have hrec := ih (attempt + 1) (by omega)
          simp [hge]
          omega
    · simp [hlt]

theorem runInit_promise_kept (es : List InitEvent) :
    ∀ (st : InitState) (p : Nat), st.initPromise = some p →
      (runInit st es).1.initPromise = some p ∧
      ((runInit st es).2.countP isNewPromise = 0) := by
  induction es with
  | nil => intro st p hp; simpa [runInit]
  | cons e es ih =>
    intro st p hp
    cases e with
    | call fresh =>
      cases hy : st.youtube with
      | some c =>
        have hstep : initStep st (.call fresh) = (st, [.cachedClient c]) := by
          simp [initStep, initYoutubeCall, hy]
        simp only [runInit, hstep]
        have := ih st p hp
        simp [List.countP_append, this.1, this.2, isNewPromise]
      | none =>
        have hstep : initStep st (.call fresh) = (st, [.existingPromise p]) := by
          simp [initStep, initYoutubeCall, hy, hp]
        simp only [runInit, hstep]
        have := ih st p hp
        simp [List.countP_append, this.1, this.2, isNewPromise]
    | initDone c =>
      have := ih { st with youtube := some c } p hp
      simp only [runInit, initStep]
      simpa using this
    | initFail =>
      have := ih { st with youtube := none } p hp
      simp only [runInit, initStep]
      simpa using this

theorem runInit_count_le_one (es : List InitEvent) :
    ∀ st : InitState, (runInit st es).2.countP isNewPromise ≤ 1 := by
  induction es with
  | nil => intro st; simp [runInit]
  | cons e es ih =>
    intro st
    cases e with
    | call fresh =>
      cases hy : st.youtube with
      | some c =>
        have hstep : initStep st (.call fresh) = (st, [.cachedClient c]) := by
          simp [initStep, initYoutubeCall, hy]
        simp only [runInit, hstep]
        simpa [List.countP_append, isNewPromise] using ih st
      | none =>
        cases hp : st.initPromise with
        | some p =>
          have hstep : initStep st (.call fresh) = (st, [.existingPromise p]) := by
            simp [initStep, initYoutubeCall, hy, hp]
          simp only [runInit, hstep]
          simpa [List.countP_append, isNewPromise] using ih st
        | none =>
          have hstep : initStep st (.call fresh) =
              ({ st with initPromise := some fresh }, [.newPromise fresh]) := by
            simp [initStep, initYoutubeCall, hy, hp]
          simp only [runInit, hstep]
          have hkept := runInit_promise_kept es { st with initPromise := some fresh }
            fresh rfl
          simp [List.countP_append, isNewPromise, hkept.2]
    | initDone c =>
      simp only [runInit, initStep]
      simpa using ih { st with youtube := some c }
    | initFail =>
      simp only [runInit, initStep]
      simpa using ih { st with youtube := none }

/-- C10: `initYoutube` is single-flight and caching.  A call with the
client cached returns it unchanged; a call with an initialization in
flight returns the same stored promise unchanged; over any event
sequence from the pristine state, at most one initialization sequence
is ever started; and one sequence makes at most `retries` attempts. -/
theorem initYoutube_single_flight (st : InitState) (fresh : Nat)
    (outcomes : Nat → Option Nat) (retries : Nat) (es : List InitEvent) :
    (∀ c, st.youtube = some c → initYoutubeCall st fresh = (st, .cachedClient c)) ∧
    (∀ p, st.youtube = none → st.initPromise = some p →
      initYoutubeCall st fresh = (st, .existingPromise p)) ∧
    ((runInit { youtube := none, initPromise := none } es).2.countP isNewPromise ≤ 1) ∧
    (initLoop outcomes retries 0).1 ≤ retries := by
  refine ⟨?_, ?_, runInit_count_le_one es _, ?_⟩
  · intro c hc
    simp [initYoutubeCall, hc]
  · intro p hy hp
    simp [initYoutubeCall, hy, hp]
  · have := initLoop_attempts_le outcomes retries retries 0 (by omega)
    simpa using this

/-- Witness for C10: a cached call, an in-flight call, a concrete event
trace with two calls around a failure, and a three-retry loop that
always fails. -/
theorem initYoutube_single_flight_witness :
    initYoutubeCall { youtube := some 7, initPromise := none } 9 =
      ({ youtube := some 7, initPromise := none }, .cachedClient 7) ∧
    initYoutubeCall { youtube := none, initPromise := some 4 } 9 =
      ({ youtube := none, initPromise := some 4 }, .existingPromise 4) ∧
    ((runInit { youtube := none, initPromise := none }
        [.call 1, .call 2, .initFail, .call 3]).2.countP isNewPromise ≤ 1) ∧
    (initLoop (fun _ => none) 3 0).1 ≤ 3 := by
  have h1 := initYoutube_single_flight { youtube := some 7, initPromise := none } 9
    (fun _ => none) 3 [.call 1, .call 2, .initFail, .call 3]
  have h2 := initYoutube_single_flight { youtube := none, initPromise := some 4 } 9
    (fun _ => none) 3 []
  exact ⟨h1.1 7 rfl, h2.2.1 4 rfl rfl, h1.2.2.1, h1.2.2.2⟩

/-! ## Claims C6, C7: the chat relay and the admin observer set

  The repository ships only the chat client (src/unnamed/part_000):
  it emits `chat-message`/`image-message` events carrying the room
  name and renders incoming copies; `sendAdminCommand` (lines 76-86)
  compares the typed password against the static string `sennin1945`
  and emits `admin-login` only on a match.  The server-side relay that
  routes those events is not among the repository's source files, so
  its fan-out and the observer promotion are modelled from the spec
  (sections 4.2-4.4), while the secret comparison is taken from
  part_000. -/

/-- A chat payload: plain text or an image data URI, as carried by the
`chat-message` / `image-message` events of part_000 lines 35 and 41. -/
inductive ChatPayload where
  | text (s : String)
  | image (dataUri : String)
deriving Repr, DecidableEq

/-- The tagged copy an observer receives (`admin-message-log` event of
part_000 lines 88-96: room, nickname, message, type — the type field is
carried by the payload constructor here). -/
structure TaggedCopy where
  room : String
  nickname : String
  message : ChatPayload
deriving Repr, DecidableEq

/-- Modelled from the spec: the relay's process-wide shared state
(sections 3 and 4.1-4.2) — the members of each room and the privileged
observer set; the server program holding this state is not among the
repository's source files.  Connections are numeric handles. -/
structure RelayState where
  members : String → List Nat
  observers : List Nat

/-- The deliveries one chat/image event produces: the untagged peer
deliveries and the tagged observer copies. -/
structure Delivery where
  peers : List Nat
  observerCopies : List (Nat × TaggedCopy)
deriving Repr, DecidableEq

/-- Modelled from the spec: the Room Relay's `send` (section 4.4, the
server-side handler of the `chat-message`/`image-message` events that
part_000 emits) — deliver to the members of the room except the
sender, and independently a tagged copy to every current observer with
no room condition and no sender exclusion. -/
def sendEvent (st : RelayState) (sender : Nat) (room nickname : String)
    (payload : ChatPayload) : Delivery :=
  { peers := (st.members room).filter (fun c => c ≠ sender)
  , observerCopies :=
      st.observers.map (fun o => (o, { room := room, nickname := nickname,
                                       message := payload })) }

/-- C6: a chat or image event emitted into room R reaches every other
connection joined to R, never the sender itself, only members of R;
and every member of the observer set receives a tagged copy regardless
of its own room memberships. -/
theorem relay_fanout (st : RelayState) (sender : Nat) (room nickname : String)
    (payload : ChatPayload) :
    (∀ b ∈ st.members room, b ≠ sender →
      b ∈ (sendEvent st sender room nickname payload).peers) ∧
    sender ∉ (sendEvent st sender room nickname payload).peers ∧
    (∀ b ∈ (sendEvent st sender room nickname payload).peers, b ∈ st.members room) ∧
    (∀ o ∈ st.observers,
      (o, { room := room, nickname := nickname, message := payload }) ∈
        (sendEvent st sender room nickname payload).observerCopies) := by
  refine ⟨?_, ?_, ?_, ?_⟩
  · intro b hb hne
    simp [sendEvent, List.mem_filter, hb, hne]
  · intro hmem
    have := (List.mem_filter.mp hmem).2
    simp at this
  · intro b hb
    exact (List.mem_filter.mp hb).1
  · intro o ho
    simp only [sendEvent]
    exact List.mem_map.mpr ⟨o, ho, rfl⟩

/-- A concrete relay state for the witnesses: room "r" holds
connections 1, 2, 3; connection 5 (in no room) is an observer. -/
def exampleRelay : RelayState :=
  { members := fun r => if r = "r" then [1, 2, 3] else []
  , observers := [5] }

/-- Witness for C6: in `exampleRelay`, a text event sent by 1 into "r"
reaches 2, not 1, and observer 5 gets the tagged copy. -/
theorem relay_fanout_witness :
    2 ∈ (sendEvent exampleRelay 1 "r" "n" (ChatPayload.text "hi")).peers ∧
    1 ∉ (sendEvent exampleRelay 1 "r" "n" (ChatPayload.text "hi")).peers ∧
    (5, { room := "r", nickname := "n", message := ChatPayload.text "hi" }) ∈
      (sendEvent exampleRelay 1 "r" "n" (ChatPayload.text "hi")).observerCopies := by
  have h := relay_fanout exampleRelay 1 "r" "n" (ChatPayload.text "hi")
  exact ⟨h.1 2 (by decide) (by decide), h.2.1, h.2.2.2 5 (by decide)⟩

/-- part_000 line 78: the static admin secret the client compares the
typed password against. -/
def adminSecret : String := "sennin1945"

/-- part_000 lines 76-86: the comparison `pw === 'sennin1945'`. -/
def authenticate (supplied : String) : Bool := supplied == adminSecret

/-- Modelled from the spec: `promote` of the Privileged Observer Set
(section 4.2, idempotent addition) — the server-side handler of the
`admin-login` event is not among the repository's source files. -/
def promote (st : RelayState) (c : Nat) : RelayState :=
  { st with observers := if c ∈ st.observers then st.observers else c :: st.observers }

/-- part_000 lines 76-86 combined with the spec-modelled promotion: on
a matching password the client emits `admin-login` and the connection
is promoted; on a wrong password nothing is emitted and no state
changes. -/
def sendAdminCommand (st : RelayState) (c : Nat) (pw : String) : RelayState :=
  if authenticate pw then promote st c else st

/-- C7: authentication is the boolean comparison against the one
static secret; a correct secret promotes the issuing connection into
the observer set and changes no room membership; a wrong secret
changes nothing at all. -/
theorem admin_auth (st : RelayState) (c : Nat) (pw : String) :
    authenticate pw = (pw == adminSecret) ∧
    (authenticate pw = true →
      c ∈ (sendAdminCommand st c pw).observers ∧
      (sendAdminCommand st c pw).members = st.members ∧
      ∀ o ∈ st.observers, o ∈ (sendAdminCommand st c pw).observers) ∧
    (authenticate pw = false → sendAdminCommand st c pw = st) := by
  refine ⟨rfl, ?_, ?_⟩
  · intro hok
    simp only [sendAdminCommand, hok, if_true]
    refine ⟨?_, rfl, ?_⟩
    · by_cases hc : c ∈ st.observers <;> simp [promote, hc]
    · intro o ho
      by_cases hc : c ∈ st.observers <;> simp [promote, hc, ho]
  · intro hbad
    simp [sendAdminCommand, hbad]

/-- Witness for C7: the right secret promotes connection 9, the wrong
secret leaves the state untouched. -/
theorem admin_auth_witness :
    9 ∈ (sendAdminCommand exampleRelay 9 "sennin1945").observers ∧
    sendAdminCommand exampleRelay 9 "wrong" = exampleRelay := by
  have h := admin_auth exampleRelay 9 "sennin1945"
  have h' := admin_auth exampleRelay 9 "wrong"
  exact ⟨(h.2.1 (by decide)).1, h'.2.2 (by decide)⟩

end Sennin
